import Mathlib

/-!
Verification of the prompt-handler execution engine of the prompt-dog
repository.

The development shallowly embeds the engine's core:

* the data model (`PromptResult`, `MultiplePromptResults`, `PromptTemplate`,
  handler records);
* the basic (template) handler execution path
  (`multipleBasicPrompts` in `src/server/actions/basicPrompt.ts`, and the
  db-handler variant of `createDbPromptHandler`);
* the advanced handler executor (`createAdvancedHandler.ts`), with its
  serial loop and its parallel rolling-concurrency scheduler with per-run
  timeout racing;
* the handler-set construction (`createPromptHandlers` /
  `validateUniqueIds`).

Timing model: JavaScript's `Date.now()` is modelled by a natural-number
clock that advances only while an awaited asynchronous call is pending; a
run's behaviour is given by a `RunSpec` (how long the wrapped async
function takes and whether it resolves or rejects).  Thrown JavaScript
values are modelled by `JsThrown` (an `Error` object carrying a message,
or any other thrown value).
-/

/-! ## JavaScript string helpers -/

/-- `String.includes` on character lists: does `pat` occur as a contiguous
substring? -/
def jsIncludesL (pat : List Char) : List Char → Bool
  | [] => pat.isEmpty
  | c :: rest => pat.isPrefixOf (c :: rest) || jsIncludesL pat rest

/-- JavaScript `s.includes(pat)`. -/
def jsIncludes (s pat : String) : Bool :=
  jsIncludesL pat.toList s.toList

/-- Replace the first occurrence of `pat` in the list by `rep`
(JavaScript `String.replace` with a string pattern); the list is returned
unchanged when `pat` does not occur. -/
def replaceFirstL (pat rep : List Char) : List Char → List Char
  | [] => []
  | c :: rest =>
    if pat.isPrefixOf (c :: rest) then rep ++ (c :: rest).drop pat.length
    else c :: replaceFirstL pat rep rest

/-! ## Data model (`src/types/promptHandler.ts`) -/

/-- One `{label, text}` diagnostic entry. -/
structure LogEntry where
  label : String
  text : String
deriving DecidableEq, Repr

/-- A JavaScript `string | object` response value; structured objects are
abstracted by an opaque tag. -/
inductive RespValue where
  | str : String → RespValue
  | obj : Nat → RespValue
deriving DecidableEq, Repr

/-- The value an advanced handler's wrapped async function resolves with
(`AdvancedResponse`). -/
structure AdvancedResponse where
  response : RespValue
  prompt : Option String
  logs : Option (List LogEntry)
deriving DecidableEq, Repr

/-- Outcome of one run (`PromptResult`); `timestamp` is the run's start
time on the model clock. -/
structure PromptResult where
  response : RespValue
  prompt : Option String
  logs : Option (List LogEntry)
  duration : Nat
  timestamp : Nat
deriving DecidableEq, Repr

/-- Outcome of one `execute` invocation (`MultiplePromptResults`). -/
structure MultiplePromptResults where
  results : List PromptResult
  totalDuration : Nat
  promptTemplate : String
  userInput : String
deriving DecidableEq, Repr

/-- A stored template (`PromptTemplate`). -/
structure PromptTemplate where
  id : Nat
  name : String
  text : String
  description : Option String
deriving DecidableEq, Repr

/-! ## Thrown JavaScript values -/

/-- A thrown JavaScript value: an `Error` object (carrying its `message`)
or any other value (carrying its string coercion). -/
inductive JsThrown where
  | error : String → JsThrown
  | nonError : String → JsThrown
deriving DecidableEq, Repr

/-- `error instanceof Error ? error.message : "Unknown error occurred"`. -/
def jsErrMessage : JsThrown → String
  | .error msg => msg
  | .nonError _ => "Unknown error occurred"

/-- Template-literal coercion of a thrown value; an `Error` object
stringifies as `Error: ` followed by its message. -/
def jsToString : JsThrown → String
  | .error msg => "Error: " ++ msg
  | .nonError s => s

/-- The log-text coercion of the parallel catch branch:
`error instanceof Error ? error.message : String(error)`. -/
def jsLogText : JsThrown → String
  | .error msg => msg
  | .nonError s => s

/-- Behaviour of one invocation of an advanced handler's wrapped async
function: how many clock milliseconds it takes to settle, and whether it
resolves with an `AdvancedResponse` or rejects with a thrown value. -/
structure RunSpec where
  dur : Nat
  outcome : Except JsThrown AdvancedResponse
deriving Repr

/-- Behaviour of one text-generation call made by a basic handler run:
settle time and either the generated text or a thrown value. -/
structure TextRunSpec where
  dur : Nat
  outcome : Except JsThrown String
deriving Repr

/-! ## Template substitution

The repository's `insertInputIntoPrompt` module is imported by
`basicPrompt.ts` and `createDbPromptHandler` but its source file is not
part of the provided tree, so it is modelled from the specification. -/

/-- The substitution placeholder token used by the stored templates. -/
def inputPlaceholder : String := "\x7b\x7bINPUT\x7d\x7d"

/-- Modelled from the spec: the source of `insertInputIntoPrompt` is not in
the provided tree; per the specification, the placeholder token is replaced
by the literal user input with no escaping, exactly once (the first
occurrence, as JavaScript `String.replace` with a string pattern does). -/
def insertInputIntoPrompt (template input : String) : String :=
  ⟨replaceFirstL inputPlaceholder.toList input.toList template.toList⟩

/-! ## Basic handler execution (`multipleBasicPrompts`) -/

/-- The template store lookup `getPromptTemplate(id)`. -/
def getPromptTemplate (store : List PromptTemplate) (id : Nat) : Option PromptTemplate :=
  store.find? (fun p => p.id == id)

/-- One iteration of the basic handler's serial loop: a successful
`generateText` call yields its text, a rejection is caught and converted
into an `Error: `-flavoured result; `prompt` is the fixed substituted
prompt in both cases. -/
def basicRun (gen : Nat → TextRunSpec) (prompt : String) (clock i : Nat) : PromptResult :=
  match (gen i).outcome with
  | .ok text =>
    { response := .str text
      prompt := some prompt
      logs := none
      duration := (gen i).dur
      timestamp := clock }
  | .error e =>
    { response := .str ("Error: " ++ jsErrMessage e)
      prompt := some prompt
      logs := none
      duration := (gen i).dur
      timestamp := clock }

/-- The basic handler's serial loop, threading the model clock; returns
the results in run order together with the clock value after the last
run. -/
def basicGo (gen : Nat → TextRunSpec) (prompt : String) :
    Nat → Nat → Nat → List PromptResult × Nat
  | clock, _i, 0 => ([], clock)
  | clock, i, Nat.succ k =>
    let r := basicRun gen prompt clock i
    let rest := basicGo gen prompt (clock + (gen i).dur) (i + 1) k
    (r :: rest.1, rest.2)

/-- `multipleBasicPrompts` (`src/server/actions/basicPrompt.ts`): resolve
the template by id (the JavaScript falsy check also rejects an
empty-text template), substitute the input once, run the text-generation
call `runCount` times serially, and report `Date.now() - startTime` as
`totalDuration`. -/
def multipleBasicPrompts (store : List PromptTemplate) (gen : Nat → TextRunSpec)
    (promptId : Nat) (input : String) (runCount t0 : Nat) :
    Except String MultiplePromptResults :=
  match (getPromptTemplate store promptId).map (·.text) with
  | none => .error "Prompt not found"
  | some template =>
    if template.isEmpty then .error "Prompt not found"
    else
      let prompt := insertInputIntoPrompt template input
      let run := basicGo gen prompt t0 0 runCount
      .ok
        { results := run.1
          totalDuration := run.2 - t0
          promptTemplate := template
          userInput := input }

/-- The `execute` operation of `createDbPromptHandler`: identical serial
loop, but the missing-template check tests the looked-up object itself
(so an empty-text template is not rejected) and the error message
differs. -/
def createDbPromptHandlerExecute (store : List PromptTemplate) (gen : Nat → TextRunSpec)
    (templateId : Nat) (input : String) (runCount t0 : Nat) :
    Except String MultiplePromptResults :=
  match getPromptTemplate store templateId with
  | none => .error "Prompt template not found"
  | some templateData =>
    let processedPrompt := insertInputIntoPrompt templateData.text input
    let run := basicGo gen processedPrompt t0 0 runCount
    .ok
      { results := run.1
        totalDuration := run.2 - t0
        promptTemplate := templateData.text
        userInput := input }

/-! ## Advanced handler: serial execution (`createAdvancedHandler.ts`) -/

/-- The `execution` configuration of `createAdvancedHandler`. -/
inductive ExecutionConfig where
  | serial : ExecutionConfig
  | parallel : Option Nat → Option Nat → ExecutionConfig
deriving DecidableEq, Repr

/-- One iteration of the advanced handler's serial loop: a resolved call
contributes its own response/prompt/logs; a rejection is caught and
converted into an `Error: `-flavoured result with an `Execution Error`
log entry. -/
def serialRun (runs : Nat → RunSpec) (input : String) (clock i : Nat) : PromptResult :=
  match (runs i).outcome with
  | .ok r =>
    { response := r.response
      prompt := r.prompt
      logs := r.logs
      duration := (runs i).dur
      timestamp := clock }
  | .error e =>
    { response := .str ("Error: " ++ jsErrMessage e)
      prompt := some ("Error processing: " ++ input)
      logs := some [⟨"Execution Error", "Execution failed: " ++ jsToString e⟩]
      duration := (runs i).dur
      timestamp := clock }

/-- The advanced handler's serial loop over runs `i, i+1, …`, threading
the model clock. -/
def serialGo (runs : Nat → RunSpec) (input : String) :
    Nat → Nat → Nat → List PromptResult
  | _clock, _i, 0 => []
  | clock, i, Nat.succ k =>
    serialRun runs input clock i :: serialGo runs input (clock + (runs i).dur) (i + 1) k

/-! ## Advanced handler: parallel execution

The rolling-concurrency scheduler is modelled as a state machine.  A run
started at time `s` settles at `s + min dur timeoutMs`: the
`Promise.race` against the timeout rejects at `timeoutMs` when the
wrapped call takes longer, and otherwise settles when the call does.
The main loop repeatedly processes the in-flight run with the earliest
settle time (appending its result, i.e. completion order) and then
starts new runs while slots below `maxConcurrency` are free. -/

/-- The parameters of one parallel `execute` call. -/
structure ParCfg where
  runs : Nat → RunSpec
  input : String
  timeoutMs : Nat
  maxConcurrency : Nat
  runCount : Nat

/-- An in-flight run: its index in start order and its start time. -/
structure ActiveRun where
  runId : Nat
  startTime : Nat
deriving DecidableEq, Repr

/-- The clock time at which an in-flight run settles (resolution,
rejection, or timeout rejection, whichever is first). -/
def runFinish (cfg : ParCfg) (a : ActiveRun) : Nat :=
  a.startTime + min (cfg.runs a.runId).dur cfg.timeoutMs

/-- The catch branch of `executeRunWithTimeout`: the timeout flavour is
chosen exactly when the caught value is an `Error` whose message contains
the substring `Timeout after`. -/
def catchResult (input : String) (e : JsThrown) (dur startTime : Nat) : PromptResult :=
  let isTimeout : Bool :=
    match e with
    | .error m => jsIncludes m "Timeout after"
    | .nonError _ => false
  { response := .str ((if isTimeout then "Timeout" else "Error") ++ ": " ++ jsErrMessage e)
    prompt := some ("Error processing: " ++ input)
    logs := some [⟨if isTimeout then "Timeout Error" else "Execution Error", jsLogText e⟩]
    duration := dur
    timestamp := startTime }

/-- `executeRunWithTimeout` for a run started at `startTime`: if the
wrapped call settles within the timeout its own outcome is used (caught
if a rejection), otherwise the race rejects with
`Timeout after <timeoutMs>ms` and the catch branch runs at the timeout
deadline. -/
def parallelRunResult (input : String) (timeoutMs : Nat) (spec : RunSpec)
    (startTime : Nat) : PromptResult :=
  if spec.dur ≤ timeoutMs then
    match spec.outcome with
    | .ok r =>
      { response := r.response
        prompt := r.prompt
        logs := r.logs
        duration := spec.dur
        timestamp := startTime }
    | .error e => catchResult input e spec.dur startTime
  else
    catchResult input (.error ("Timeout after " ++ toString timeoutMs ++ "ms"))
      timeoutMs startTime

/-- A completed run as recorded by the scheduler: start-order index,
settle time, and the produced result. -/
structure SchedEntry where
  runId : Nat
  finish : Nat
  result : PromptResult
deriving DecidableEq, Repr

/-- Scheduler state: current clock, number of runs started so far, the
in-flight runs, and the completed entries in completion order. -/
structure ParState where
  now : Nat
  started : Nat
  active : List ActiveRun
  done : List SchedEntry
deriving Repr

/-- Start `n` further runs at the current clock (the `startNextRun`
calls of the initial batch and of the refill loop). -/
def startMany (s : ParState) (n : Nat) : ParState :=
  { s with
    started := s.started + n
    active := s.active ++ (List.range n).map (fun k => ⟨s.started + k, s.now⟩) }

/-- Refill free scheduler slots: start runs while fewer than
`maxConcurrency` are in flight and unstarted runs remain. -/
def refill (cfg : ParCfg) (s : ParState) : ParState :=
  startMany s (min (cfg.maxConcurrency - s.active.length) (cfg.runCount - s.started))

/-- Select the in-flight run with the earliest settle time (first such on
ties), returning it and the remaining in-flight runs in order. -/
def pickMinGo (f : ActiveRun → Nat) : ActiveRun → List ActiveRun → ActiveRun × List ActiveRun
  | best, [] => (best, [])
  | best, x :: xs =>
    if f x < f best then
      let r := pickMinGo f x xs
      (r.1, best :: r.2)
    else
      let r := pickMinGo f best xs
      (r.1, x :: r.2)

/-- `pickMin` on the whole in-flight list. -/
def pickMin (f : ActiveRun → Nat) : List ActiveRun → Option (ActiveRun × List ActiveRun)
  | [] => none
  | x :: xs => some (pickMinGo f x xs)

/-- One settle event of the scheduler: the earliest-settling in-flight
run completes, its result is appended (completion order), the clock
advances to its settle time, and free slots are refilled. -/
def stepOne (cfg : ParCfg) (s : ParState) : ParState :=
  match pickMin (runFinish cfg) s.active with
  | none => s
  | some (a, rest) =>
    let fin := runFinish cfg a
    refill cfg
      { now := fin
        started := s.started
        active := rest
        done := s.done ++
          [⟨a.runId, fin, parallelRunResult cfg.input cfg.timeoutMs (cfg.runs a.runId) a.startTime⟩] }

/-- The scheduler's main loop (`while (completed < runCount)`), with the
safety-check break when nothing is in flight; `fuel` bounds the number of
settle events (each event completes exactly one run). -/
def parLoop (cfg : ParCfg) : Nat → ParState → ParState
  | 0, s => s
  | Nat.succ fuel, s =>
    if s.done.length < cfg.runCount then
      if s.active.isEmpty then s
      else parLoop cfg fuel (stepOne cfg s)
    else s

/-- The scheduler state after the initial batch of
`min maxConcurrency runCount` starts. -/
def parStart (cfg : ParCfg) (t0 : Nat) : ParState :=
  startMany { now := t0, started := 0, active := [], done := [] }
    (min cfg.maxConcurrency cfg.runCount)

/-- `executeWithRollingConcurrency` starting at clock `t0`: start the
initial batch, then process settle events. -/
def parRun (cfg : ParCfg) (t0 : Nat) : ParState :=
  parLoop cfg cfg.runCount (parStart cfg t0)

/-- The `execute` operation of `createAdvancedHandler`: serial loop or
parallel scheduler, with `maxConcurrency` defaulting to `runCount`,
`timeoutMs` defaulting to `30000`, serial `totalDuration` the sum of the
per-run durations and parallel `totalDuration` the wall-clock span of
the batch. -/
def advancedExecute (execution : ExecutionConfig) (name : String)
    (runs : Nat → RunSpec) (input : String) (runCount t0 : Nat) :
    MultiplePromptResults :=
  match execution with
  | .serial =>
    let results := serialGo runs input t0 0 runCount
    { results := results
      totalDuration := (results.map (·.duration)).foldl (· + ·) 0
      promptTemplate := name
      userInput := input }
  | .parallel mc tm =>
    let cfg : ParCfg :=
      { runs := runs
        input := input
        timeoutMs := tm.getD 30000
        maxConcurrency := mc.getD runCount
        runCount := runCount }
    let final := parRun cfg t0
    { results := final.done.map (·.result)
      totalDuration := final.now - t0
      promptTemplate := name
      userInput := input }

/-! ## Handler-set construction (`createPromptHandlers` / `validateUniqueIds`)

Handlers are embedded as records of their identifying fields; their
`execute` closures are the execution embeddings above
(`createDbPromptHandlerExecute`, `advancedExecute`) and play no role in
id-uniqueness validation. -/

/-- A constructed prompt handler (identifying fields). -/
structure Handler where
  id : String
  name : String
  description : Option String
  category : String
deriving DecidableEq, Repr

/-- `createDbPromptHandler`: the `db-<templateId>` id convention, category
`basic`. -/
def createDbPromptHandler (t : PromptTemplate) : Handler :=
  { id := "db-" ++ toString t.id
    name := t.name
    description := t.description
    category := "basic" }

/-- A member of the fixed `ADVANCED_HANDLERS` list wrapped by
`createAdvancedHandler` (category `advanced`). -/
def mkAdvancedHandler (id name : String) (description : Option String) : Handler :=
  { id := id, name := name, description := description, category := "advanced" }

/-- The fixed `ADVANCED_HANDLERS` handler values. -/
def advancedHandlers : List Handler :=
  [ mkAdvancedHandler "advanced-json-response" "Structured JSON Response"
      (some "Returns structured answer with reasoning using JSON schema"),
    mkAdvancedHandler "two-stage-json-response" "Two Stage JSON Response"
      (some "Returns structured answer with reasoning using JSON schema") ]

/-- `validateUniqueIds`: collect every id whose first index differs from
its position and throw when any exists. -/
def validateUniqueIds (handlers : List Handler) : Except String Unit :=
  let ids := handlers.map (·.id)
  let duplicates := (ids.enum.filter (fun p => ids.indexOf p.2 != p.1)).map (·.2)
  if 0 < duplicates.length then
    .error ("Duplicate handler IDs found: " ++ String.intercalate ", " duplicates)
  else .ok ()

/-- `createPromptHandlers`: one db handler per template followed by the
fixed advanced handlers, validated for unique ids. -/
def createPromptHandlers (promptTemplates : List PromptTemplate) :
    Except String (List Handler) :=
  let handlers := promptTemplates.map createDbPromptHandler ++ advancedHandlers
  match validateUniqueIds handlers with
  | .error e => .error e
  | .ok _ => .ok handlers

/-- JavaScript `s.startsWith(p)`. -/
def strStarts (s p : String) : Bool := p.data.isPrefixOf s.data

/-- Total time the wrapped calls of runs `i, …, i+k-1` take. -/
def sumDur (runs : Nat → RunSpec) (i : Nat) : Nat → Nat
  | 0 => 0
  | Nat.succ k => (runs i).dur + sumDur runs (i + 1) k

/-- Total time the text-generation calls of runs `i, …, i+k-1` take. -/
def sumTextDur (gen : Nat → TextRunSpec) (i : Nat) : Nat → Nat
  | 0 => 0
  | Nat.succ k => (gen i).dur + sumTextDur gen (i + 1) k

/-- Invariant of the rolling-concurrency scheduler, relative to the batch
start time `t0`: bookkeeping counts agree, at most `maxConcurrency` (and
exactly `min maxConcurrency (runCount - completed)`) runs are in flight,
completed entries settled no later than the clock, in-flight runs settle
no earlier than the clock, entries are recorded in non-decreasing settle
order, and the clock is the settle time of the last recorded entry. -/
structure SchedInv (cfg : ParCfg) (t0 : Nat) (s : ParState) : Prop where
  done_le : s.done.length ≤ cfg.runCount
  active_len : s.active.length = min cfg.maxConcurrency (cfg.runCount - s.done.length)
  started_eq : s.started = s.done.length + s.active.length
  done_before : ∀ e ∈ s.done, e.finish ≤ s.now
  active_after : ∀ a ∈ s.active, s.now ≤ runFinish cfg a
  done_sorted : List.Chain' (fun e₁ e₂ => e₁.finish ≤ e₂.finish) s.done
  now_eq : s.now = ((s.done.map (·.finish)).getLast?).getD t0
  t0_le : t0 ≤ s.now

/-! ## Helper lemmas: strings -/

/-- A list is a `isPrefixOf` of itself followed by anything. -/
theorem isPrefixOf_append_self (pat r : List Char) : pat.isPrefixOf (pat ++ r) = true := by
  induction pat with
  | nil => simp
  | cons c cs ih => simp [List.isPrefixOf_cons₂, ih]

theorem jsIncludesL_of_isPrefixOf {pat l : List Char} (h : pat.isPrefixOf l = true) :
    jsIncludesL pat l = true := by
  cases l with
  | nil =>
    cases pat with
    | nil => simp [jsIncludesL]
    | cons c cs => simp at h
  | cons c rest => simp [jsIncludesL, h]

/-- The raced timeout rejection's message always contains the
classification substring. -/
theorem jsIncludes_timeout_message (tm : Nat) :
    jsIncludes ("Timeout after " ++ toString tm ++ "ms") "Timeout after" = true := by
  have hdata : ("Timeout after " ++ toString tm ++ "ms").data
      = "Timeout after".data ++ (' ' :: ((toString tm).data ++ "ms".data)) := by
    rw [String.data_append, String.data_append]
    rw [show ("Timeout after ").data = "Timeout after".data ++ [' '] from by decide]
    simp
  show jsIncludesL "Timeout after".data ("Timeout after " ++ toString tm ++ "ms").data = true
  rw [hdata]
  exact jsIncludesL_of_isPrefixOf (isPrefixOf_append_self _ _)

theorem strStarts_append_self (p r : String) : strStarts (p ++ r) p = true := by
  show (p.data.isPrefixOf (p ++ r).data) = true
  rw [String.data_append]
  exact isPrefixOf_append_self _ _

/-! ## Helper lemmas: left fold as sum -/

theorem foldl_add_eq_sum (l : List Nat) : ∀ a : Nat, l.foldl (· + ·) a = a + l.sum := by
  induction l with
  | nil => simp
  | cons x xs ih => intro a; simp [List.foldl_cons, ih, List.sum_cons]; omega

/-! ## Helper lemmas: the serial loop -/

theorem serialGo_length (runs : Nat → RunSpec) (input : String) :
    ∀ k clock i, (serialGo runs input clock i k).length = k := by
  intro k
  induction k with
  | zero => intro clock i; rfl
  | succ k ih => intro clock i; simp [serialGo, ih]

theorem serialGo_getElem? (runs : Nat → RunSpec) (input : String) :
    ∀ k j clock i, j < k →
      (serialGo runs input clock i k)[j]?
        = some (serialRun runs input (clock + sumDur runs i j) (i + j)) := by
  intro k
  induction k with
  | zero => intro j clock i h; omega
  | succ k ih =>
    intro j clock i h
    cases j with
    | zero => simp [serialGo, sumDur]
    | succ j =>
      have hj : j < k := by omega
      simp only [serialGo, List.getElem?_cons_succ]
      rw [ih j (clock + (runs i).dur) (i + 1) hj]
      have h1 : clock + (runs i).dur + sumDur runs (i + 1) j
          = clock + sumDur runs i (Nat.succ j) := by
        simp [sumDur]; omega
      have h2 : i + 1 + j = i + Nat.succ j := by omega
      rw [h1, h2]

theorem serialGo_map_duration (runs : Nat → RunSpec) (input : String) :
    ∀ k clock i, ((serialGo runs input clock i k).map (·.duration)).sum = sumDur runs i k := by
  intro k
  induction k with
  | zero => intro clock i; rfl
  | succ k ih =>
    intro clock i
    have hdur : (serialRun runs input clock i).duration = (runs i).dur := by
      unfold serialRun
      cases (runs i).outcome <;> rfl
    simp [serialGo, sumDur, hdur, ih]

/-! ## Helper lemmas: the basic handler loop -/

theorem basicGo_length (gen : Nat → TextRunSpec) (prompt : String) :
    ∀ k clock i, (basicGo gen prompt clock i k).1.length = k := by
  intro k
  induction k with
  | zero => intro clock i; rfl
  | succ k ih => intro clock i; simp [basicGo, ih]

theorem basicGo_clock (gen : Nat → TextRunSpec) (prompt : String) :
    ∀ k clock i, (basicGo gen prompt clock i k).2 = clock + sumTextDur gen i k := by
  intro k
  induction k with
  | zero => intro clock i; simp [basicGo, sumTextDur]
  | succ k ih =>
    intro clock i
    simp [basicGo, sumTextDur, ih]
    omega

theorem basicGo_map_duration (gen : Nat → TextRunSpec) (prompt : String) :
    ∀ k clock i, ((basicGo gen prompt clock i k).1.map (·.duration)).sum = sumTextDur gen i k := by
  intro k
  induction k with
  | zero => intro clock i; rfl
  | succ k ih =>
    intro clock i
    have hdur : (basicRun gen prompt clock i).duration = (gen i).dur := by
      unfold basicRun
      cases (gen i).outcome <;> rfl
    simp [basicGo, sumTextDur, hdur, ih]

theorem basicGo_prompt (gen : Nat → TextRunSpec) (prompt : String) :
    ∀ k clock i, ∀ r ∈ (basicGo gen prompt clock i k).1, r.prompt = some prompt := by
  intro k
  induction k with
  | zero => intro clock i r hr; simp [basicGo] at hr
  | succ k ih =>
    intro clock i r hr
    simp only [basicGo, List.mem_cons] at hr
    rcases hr with h | h
    · subst h
      unfold basicRun
      cases (gen i).outcome <;> rfl
    · exact ih _ _ r h

/-! ## Helper lemmas: picking the earliest-settling run -/

theorem pickMinGo_length (f : ActiveRun → Nat) :
    ∀ xs best, ((pickMinGo f best xs).2).length = xs.length := by
  intro xs
  induction xs with
  | nil => intro best; rfl
  | cons x xs ih =>
    intro best
    by_cases h : f x < f best <;> simp [pickMinGo, h, ih]

theorem pickMinGo_le (f : ActiveRun → Nat) :
    ∀ xs best, f (pickMinGo f best xs).1 ≤ f best ∧
      ∀ b ∈ (pickMinGo f best xs).2, f (pickMinGo f best xs).1 ≤ f b := by
  intro xs
  induction xs with
  | nil =>
    intro best
    exact ⟨Nat.le_refl _, by intro b hb; simp [pickMinGo] at hb⟩
  | cons x xs ih =>
    intro best
    by_cases h : f x < f best
    · refine ⟨?_, ?_⟩
      · simp only [pickMinGo, if_pos h]
        exact Nat.le_trans (ih x).1 (Nat.le_of_lt h)
      · intro b hb
        simp only [pickMinGo, if_pos h, List.mem_cons] at hb ⊢
        rcases hb with rfl | hb
        · exact Nat.le_trans (ih x).1 (Nat.le_of_lt h)
        · exact (ih x).2 b hb
    · refine ⟨?_, ?_⟩
      · simp only [pickMinGo, if_neg h]
        exact (ih best).1
      · intro b hb
        simp only [pickMinGo, if_neg h, List.mem_cons] at hb ⊢
        rcases hb with rfl | hb
        · exact Nat.le_trans (ih best).1 (Nat.le_of_not_lt h)
        · exact (ih best).2 b hb

theorem pickMinGo_mem (f : ActiveRun → Nat) :
    ∀ xs best, (pickMinGo f best xs).1 ∈ best :: xs := by
  intro xs
  induction xs with
  | nil => intro best; simp [pickMinGo]
  | cons x xs ih =>
    intro best
    by_cases h : f x < f best
    · simp only [pickMinGo, if_pos h]
      have := ih x
      simp only [List.mem_cons] at this ⊢
      tauto
    · simp only [pickMinGo, if_neg h]
      have := ih best
      simp only [List.mem_cons] at this ⊢
      tauto

theorem pickMinGo_rest_mem (f : ActiveRun → Nat) :
    ∀ xs best b, b ∈ (pickMinGo f best xs).2 → b ∈ best :: xs := by
  intro xs
  induction xs with
  | nil => intro best b hb; simp [pickMinGo] at hb
  | cons x xs ih =>
    intro best b hb
    by_cases h : f x < f best
    · simp only [pickMinGo, if_pos h, List.mem_cons] at hb
      rcases hb with rfl | hb
      · simp
      · have := ih x b hb
        simp only [List.mem_cons] at this ⊢
        tauto
    · simp only [pickMinGo, if_neg h, List.mem_cons] at hb
      rcases hb with rfl | hb
      · simp
      · have := ih best b hb
        simp only [List.mem_cons] at this ⊢
        tauto

/-- What `pickMin` guarantees when the in-flight list is nonempty. -/
theorem pickMin_spec {f : ActiveRun → Nat} {l : List ActiveRun} {a : ActiveRun}
    {rest : List ActiveRun} (h : pickMin f l = some (a, rest)) :
    a ∈ l ∧ rest.length + 1 = l.length ∧ (∀ b ∈ rest, f a ≤ f b) ∧ (∀ b ∈ rest, b ∈ l) := by
  cases l with
  | nil => simp [pickMin] at h
  | cons x xs =>
    have h' : pickMinGo f x xs = (a, rest) := by
      simpa [pickMin] using h
    refine ⟨?_, ?_, ?_, ?_⟩
    · have := pickMinGo_mem f xs x
      rw [h'] at this
      exact this
    · have := pickMinGo_length f xs x
      rw [h'] at this
      simp [this]
    · have := (pickMinGo_le f xs x).2
      rw [h'] at this
      exact this
    · intro b hb
      have := pickMinGo_rest_mem f xs x b
      rw [h'] at this
      exact this hb

theorem pickMin_nil_iff {f : ActiveRun → Nat} {l : List ActiveRun} :
    pickMin f l = none ↔ l = [] := by
  cases l <;> simp [pickMin]

/-! ## The scheduler invariant -/

@[simp] theorem startMany_now (s : ParState) (n : Nat) : (startMany s n).now = s.now := rfl

@[simp] theorem startMany_done (s : ParState) (n : Nat) : (startMany s n).done = s.done := rfl

@[simp] theorem startMany_started (s : ParState) (n : Nat) :
    (startMany s n).started = s.started + n := rfl

theorem startMany_active (s : ParState) (n : Nat) :
    (startMany s n).active
      = s.active ++ (List.range n).map (fun k => ⟨s.started + k, s.now⟩) := rfl

theorem schedInv_parStart (cfg : ParCfg) (t0 : Nat) :
    SchedInv cfg t0 (parStart cfg t0) := by
  refine ⟨?_, ?_, ?_, ?_, ?_, ?_, ?_, ?_⟩
  · simp [parStart, startMany]
  · simp [parStart, startMany]
  · simp [parStart, startMany]
  · intro e he; simp [parStart, startMany] at he
  · intro a ha
    simp only [parStart, startMany, List.nil_append, List.mem_map,
      List.mem_range] at ha
    obtain ⟨k, _, rfl⟩ := ha
    simp only [runFinish, parStart, startMany_now]
    omega
  · simp [parStart, startMany]
  · simp [parStart, startMany]
  · simp [parStart, startMany]

/-- One settle event preserves the invariant. -/
theorem schedInv_stepOne (cfg : ParCfg) (t0 : Nat) {s : ParState}
    (h : SchedInv cfg t0 s) : SchedInv cfg t0 (stepOne cfg s) := by
  cases hp : pickMin (runFinish cfg) s.active with
  | none =>
    simpa [stepOne, hp] using h
  | some p =>
    obtain ⟨a, rest⟩ := p
    obtain ⟨ha_mem, hlen, hmin, hrest⟩ := pickMin_spec hp
    have hnow_fin : s.now ≤ runFinish cfg a := h.active_after a ha_mem
    have hal : s.active.length = min cfg.maxConcurrency (cfg.runCount - s.done.length) :=
      h.active_len
    have hd_lt : s.done.length < cfg.runCount := by omega
    have hstep : stepOne cfg s =
        startMany
          { now := runFinish cfg a
            started := s.started
            active := rest
            done := s.done ++
              [⟨a.runId, runFinish cfg a,
                parallelRunResult cfg.input cfg.timeoutMs (cfg.runs a.runId) a.startTime⟩] }
          (min (cfg.maxConcurrency - rest.length) (cfg.runCount - s.started)) := by
      simp [stepOne, hp, refill]
    rw [hstep]
    have hst := h.started_eq
    refine ⟨?_, ?_, ?_, ?_, ?_, ?_, ?_, ?_⟩
    · simp only [startMany, List.length_append, List.length_cons, List.length_nil]
      omega
    · simp only [startMany, List.length_append, List.length_map, List.length_range,
        List.length_cons, List.length_nil]
      omega
    · simp only [startMany, List.length_append, List.length_map, List.length_range,
        List.length_cons, List.length_nil]
      omega
    · intro e he
      simp only [startMany, List.mem_append, List.mem_singleton] at he
      rcases he with he | rfl
      · exact Nat.le_trans (h.done_before e he) hnow_fin
      · exact Nat.le_refl _
    · intro b hb
      simp only [startMany, List.mem_append, List.mem_map, List.mem_range] at hb
      rcases hb with hb | ⟨k, _, rfl⟩
      · exact hmin b hb
      · simp [runFinish]
    · simp only [startMany]
      rw [List.chain'_append]
      refine ⟨h.done_sorted, List.chain'_singleton _, ?_⟩
      intro x hx y hy
      simp only [List.head?_cons, Option.mem_def, Option.some.injEq] at hy
      subst hy
      have hx_mem : x ∈ s.done := List.mem_of_getLast?_eq_some hx
      exact Nat.le_trans (h.done_before x hx_mem) hnow_fin
    · simp only [startMany, List.map_append, List.map_cons, List.map_nil]
      rw [List.getLast?_concat]
      rfl
    · exact Nat.le_trans h.t0_le hnow_fin

/-- A settle event on a nonempty in-flight list records exactly one new
entry. -/
theorem stepOne_done_length {cfg : ParCfg} {s : ParState} (hne : s.active ≠ []) :
    (stepOne cfg s).done.length = s.done.length + 1 := by
  cases hx : s.active with
  | nil => exact absurd hx hne
  | cons x xs =>
    simp [stepOne, pickMin, hx, refill, startMany]

/-! ## Loop-level scheduler lemmas -/

theorem parLoop_inv (cfg : ParCfg) (t0 : Nat) :
    ∀ fuel s, SchedInv cfg t0 s → SchedInv cfg t0 (parLoop cfg fuel s) := by
  intro fuel
  induction fuel with
  | zero => intro s h; exact h
  | succ fuel ih =>
    intro s h
    by_cases h1 : s.done.length < cfg.runCount
    · by_cases h2 : s.active.isEmpty
      · simpa [parLoop, h1, h2] using h
      · simp only [parLoop, if_pos h1, if_neg h2]
        exact ih _ (schedInv_stepOne cfg t0 h)
    · simpa [parLoop, h1] using h

/-- With at least one concurrency slot, the loop completes all
`runCount` runs. -/
theorem parLoop_done_length (cfg : ParCfg) (t0 : Nat)
    (hmc : 1 ≤ cfg.maxConcurrency) :
    ∀ fuel s, SchedInv cfg t0 s → cfg.runCount ≤ s.done.length + fuel →
      (parLoop cfg fuel s).done.length = cfg.runCount := by
  intro fuel
  induction fuel with
  | zero =>
    intro s h hf
    have := h.done_le
    simp only [parLoop]
    omega
  | succ fuel ih =>
    intro s h hf
    by_cases h1 : s.done.length < cfg.runCount
    · have hne : s.active ≠ [] := by
        intro hnil
        have := h.active_len
        rw [hnil] at this
        simp only [List.length_nil] at this
        omega
      have h2 : s.active.isEmpty = false := by
        cases hx : s.active with
        | nil => exact absurd hx hne
        | cons x xs => rfl
      simp only [parLoop, if_pos h1, h2, Bool.false_eq_true, if_false]
      exact ih _ (schedInv_stepOne cfg t0 h)
        (by rw [stepOne_done_length hne]; omega)
    · have := h.done_le
      simp only [parLoop, if_neg h1]
      omega

theorem parRun_inv (cfg : ParCfg) (t0 : Nat) : SchedInv cfg t0 (parRun cfg t0) :=
  parLoop_inv cfg t0 cfg.runCount (parStart cfg t0) (schedInv_parStart cfg t0)

/-- With at least one concurrency slot, the scheduler records exactly
`runCount` entries. -/
theorem parRun_done_length (cfg : ParCfg) (t0 : Nat) (hmc : 1 ≤ cfg.maxConcurrency) :
    (parRun cfg t0).done.length = cfg.runCount := by
  apply parLoop_done_length cfg t0 hmc
  · exact schedInv_parStart cfg t0
  · simp [parStart]

/-- The invariant holds on every state of the settle-event trace. -/
theorem schedInv_iterate (cfg : ParCfg) (t0 : Nat) :
    ∀ k, SchedInv cfg t0 ((stepOne cfg)^[k] (parStart cfg t0)) := by
  intro k
  induction k with
  | zero => exact schedInv_parStart cfg t0
  | succ k ih =>
    rw [Function.iterate_succ_apply']
    exact schedInv_stepOne cfg t0 ih

/-- Refill: a settle event while unstarted runs remain starts exactly one
new run. -/
theorem stepOne_started_succ (cfg : ParCfg) (t0 : Nat) {s : ParState}
    (h : SchedInv cfg t0 s) (hne : s.active ≠ [])
    (hlt : s.started < cfg.runCount) :
    (stepOne cfg s).started = s.started + 1 := by
  cases hp : pickMin (runFinish cfg) s.active with
  | none => exact absurd (pickMin_nil_iff.mp hp) hne
  | some p =>
    obtain ⟨a, rest⟩ := p
    obtain ⟨ha_mem, hlen, hmin, hrest⟩ := pickMin_spec hp
    have hal := h.active_len
    have hst := h.started_eq
    have hstep : (stepOne cfg s).started =
        s.started + min (cfg.maxConcurrency - rest.length) (cfg.runCount - s.started) := by
      simp [stepOne, hp, refill]
    rw [hstep]
    omega

/-! ## Helper lemmas: first-occurrence replacement -/

/-- `replaceFirstL` replaces the designated occurrence when no earlier
position matches the pattern. -/
theorem replaceFirstL_first (pat rep b : List Char) (hpat : pat ≠ []) :
    ∀ a : List Char,
      (∀ i, i < a.length → pat.isPrefixOf ((a ++ pat ++ b).drop i) = false) →
      replaceFirstL pat rep (a ++ pat ++ b) = a ++ rep ++ b := by
  intro a
  induction a with
  | nil =>
    intro _
    cases hp : pat with
    | nil => exact absurd hp hpat
    | cons c cs =>
      have hpre := isPrefixOf_append_self (c :: cs) b
      simp only [List.nil_append, List.cons_append] at hpre ⊢
      simp only [replaceFirstL, hpre, if_true, List.length_cons, List.drop_succ_cons]
      rw [List.drop_left]
  | cons c a' ih =>
    intro hfirst
    have h0 : pat.isPrefixOf (c :: (a' ++ pat ++ b)) = false := by
      have := hfirst 0 (by simp)
      simpa using this
    simp only [List.cons_append]
    simp only [replaceFirstL, h0, Bool.false_eq_true, if_false, List.cons.injEq, true_and]
    apply ih
    intro i hi
    have := hfirst (i + 1) (by simp only [List.length_cons]; omega)
    simpa [List.cons_append] using this

/-! ## Helper lemmas: `indexOf` and duplicate detection -/

theorem indexOf_le_of_getElem? {α : Type} [BEq α] [LawfulBEq α] :
    ∀ (l : List α) (i : Nat) (x : α), l[i]? = some x → l.indexOf x ≤ i := by
  intro l
  induction l with
  | nil => intro i x h; simp at h
  | cons y ys ih =>
    intro i x h
    by_cases hyx : y == x
    · simp [List.indexOf_cons, hyx]
    · cases i with
      | zero =>
        simp only [List.getElem?_cons_zero, Option.some.injEq] at h
        subst h
        simp at hyx
      | succ i =>
        simp only [List.getElem?_cons_succ] at h
        have := ih i x h
        simp only [List.indexOf_cons, hyx, cond_false]
        omega

theorem getElem?_indexOf_self {α : Type} [BEq α] [LawfulBEq α] :
    ∀ (l : List α) (x : α), x ∈ l → l[l.indexOf x]? = some x := by
  intro l
  induction l with
  | nil => intro x h; simp at h
  | cons y ys ih =>
    intro x h
    by_cases hyx : y == x
    · have : y = x := by simpa using hyx
      subst this
      simp [List.indexOf_cons]
    · have hx : x ∈ ys := by
        rcases List.mem_cons.mp h with rfl | hx
        · simp at hyx
        · exact hx
      simp only [List.indexOf_cons, hyx, cond_false, List.getElem?_cons_succ]
      exact ih x hx

/-- A list is duplicate-free exactly when every element's first index is
its position. -/
theorem nodup_iff_indexOf_getElem? {α : Type} [BEq α] [LawfulBEq α] :
    ∀ l : List α, l.Nodup ↔ ∀ (i : Nat) (x : α), l[i]? = some x → l.indexOf x = i := by
  intro l
  induction l with
  | nil => simp
  | cons y ys ih =>
    constructor
    · intro hnd i x h
      obtain ⟨hy_notin, hys⟩ := List.nodup_cons.mp hnd
      cases i with
      | zero =>
        simp only [List.getElem?_cons_zero, Option.some.injEq] at h
        subst h
        simp [List.indexOf_cons]
      | succ i =>
        simp only [List.getElem?_cons_succ] at h
        have hx : x ∈ ys := by
          have := List.getElem?_eq_some_iff.mp h
          obtain ⟨hlt, heq⟩ := this
          exact heq ▸ List.getElem_mem hlt
        have hyx : (y == x) = false := by
          by_cases hc : y == x
          · have : y = x := by simpa using hc
            subst this
            exact absurd hx hy_notin
          · simpa using hc
        simp only [List.indexOf_cons, hyx, cond_false]
        rw [ih.mp hys i x h]
    · intro hidx
      rw [List.nodup_cons]
      constructor
      · intro hy_in
        have h1 := hidx (ys.indexOf y + 1) y
          (by simpa using getElem?_indexOf_self ys y hy_in)
        simp [List.indexOf_cons] at h1
      · apply ih.mpr
        intro i x h
        have h1 := hidx (i + 1) x (by simpa using h)
        have hyx : (y == x) = false := by
          by_cases hc : y == x
          · rw [List.indexOf_cons, hc] at h1
            simp at h1
          · simpa using hc
        rw [List.indexOf_cons, hyx] at h1
        simpa using h1

/-! ## Helper lemmas: handler-set validation -/

/-- The duplicate filter is empty exactly for duplicate-free id lists. -/
theorem dupFilter_eq_nil_iff (ids : List String) :
    ids.enum.filter (fun p => ids.indexOf p.2 != p.1) = [] ↔ ids.Nodup := by
  rw [List.filter_eq_nil_iff]
  constructor
  · intro h
    rw [nodup_iff_indexOf_getElem? ids]
    intro i x hix
    have hmem : (i, x) ∈ ids.enum := List.mk_mem_enum_iff_getElem?.mpr hix
    have := h (i, x) hmem
    simpa using this
  · intro hnd p hp
    obtain ⟨i, x⟩ := p
    have hix := List.mk_mem_enum_iff_getElem?.mp hp
    have := (nodup_iff_indexOf_getElem? ids).mp hnd i x hix
    simp [this]

theorem validateUniqueIds_ok_iff (handlers : List Handler) :
    validateUniqueIds handlers = .ok () ↔ (handlers.map (·.id)).Nodup := by
  unfold validateUniqueIds
  rcases hf : (handlers.map (·.id)).enum.filter
      (fun p => (handlers.map (·.id)).indexOf p.2 != p.1) with _ | ⟨p, ps⟩
  · simp only [hf, List.map_nil, List.length_nil, Nat.lt_irrefl, if_false]
    simp only [true_iff]
    exact (dupFilter_eq_nil_iff _).mp hf
  · simp only [hf, List.map_cons, List.length_cons, Nat.zero_lt_succ, if_true]
    constructor
    · intro h; cases h
    · intro hnd
      have := (dupFilter_eq_nil_iff (handlers.map (·.id))).mpr hnd
      rw [hf] at this
      cases this

/-! ## Helper lemmas: basic handler resolution -/

/-- The successful shape of `multipleBasicPrompts` when the template is
present with nonempty text. -/
theorem multipleBasicPrompts_ok {store : List PromptTemplate} {gen : Nat → TextRunSpec}
    {promptId : Nat} {input : String} {runCount t0 : Nat} {tpl : PromptTemplate}
    (h : getPromptTemplate store promptId = some tpl)
    (htext : tpl.text.isEmpty = false) :
    multipleBasicPrompts store gen promptId input runCount t0 =
      .ok
        { results := (basicGo gen (insertInputIntoPrompt tpl.text input) t0 0 runCount).1
          totalDuration := (basicGo gen (insertInputIntoPrompt tpl.text input) t0 0 runCount).2 - t0
          promptTemplate := tpl.text
          userInput := input } := by
  unfold multipleBasicPrompts
  rw [h]
  simp [htext]

/-- The successful shape of `createDbPromptHandler`'s `execute` when the
template is present. -/
theorem createDbPromptHandlerExecute_ok {store : List PromptTemplate}
    {gen : Nat → TextRunSpec} {templateId : Nat} {input : String} {runCount t0 : Nat}
    {tpl : PromptTemplate} (h : getPromptTemplate store templateId = some tpl) :
    createDbPromptHandlerExecute store gen templateId input runCount t0 =
      .ok
        { results := (basicGo gen (insertInputIntoPrompt tpl.text input) t0 0 runCount).1
          totalDuration := (basicGo gen (insertInputIntoPrompt tpl.text input) t0 0 runCount).2 - t0
          promptTemplate := tpl.text
          userInput := input } := by
  unfold createDbPromptHandlerExecute
  rw [h]

/-! ## Helper lemmas: batch wall-clock -/

/-- With at least one slot and one run, the scheduler's final clock is
the settle time of the last recorded entry, every entry settles no later,
and the batch start is no later. -/
theorem parRun_wallclock (cfg : ParCfg) (t0 : Nat)
    (hmc : 1 ≤ cfg.maxConcurrency) (hrc : 1 ≤ cfg.runCount) :
    (∀ e ∈ (parRun cfg t0).done, e.finish ≤ (parRun cfg t0).now) ∧
    (∃ e ∈ (parRun cfg t0).done, e.finish = (parRun cfg t0).now) ∧
    t0 ≤ (parRun cfg t0).now := by
  have hinv := parRun_inv cfg t0
  refine ⟨hinv.done_before, ?_, hinv.t0_le⟩
  have hlen := parRun_done_length cfg t0 hmc
  have hne : (parRun cfg t0).done ≠ [] := by
    intro h
    rw [h] at hlen
    simp at hlen
    omega
  rcases hx : (parRun cfg t0).done.getLast? with _ | e
  · exact absurd (List.getLast?_eq_none_iff.mp hx) hne
  · refine ⟨e, List.mem_of_getLast?_eq_some hx, ?_⟩
    have hnow := hinv.now_eq
    rw [List.getLast?_map, hx, Option.map_some'] at hnow
    simp only [Option.getD_some] at hnow
    exact hnow.symm

/-! ## Claim theorems -/

/-- C1, counterexample: the claim as stated fails on the code.  With the
parallel policy and an explicit `maxConcurrency` of `0`, the scheduler's
safety-check break returns an empty results list, so `execute` resolves
with `results.length = 0` although `runCount = 1 ≥ 1`. -/
theorem claim_C1_counterexample :
    ¬ ((advancedExecute (.parallel (some 0) none) "h"
        (fun _ => ⟨1, .ok ⟨.str "ok", none, none⟩⟩) "x" 1 0).results.length = 1) := by
  decide

/-- C1 (amended): for every handler and every `execute({input, runCount})`
call with `runCount ≥ 1` that resolves, the results sequence has length
exactly `runCount` — under the serial policy always, and under the
parallel policy whenever the effective `maxConcurrency` (the explicit
value, or its default `runCount`) is at least 1 — regardless of how many
runs failed: failures appear as error-flavoured results, never by
shortening the sequence. -/
theorem claim_C1_results_length
    (name input : String) (runs : Nat → RunSpec) (gen : Nat → TextRunSpec)
    (store : List PromptTemplate) (promptId runCount t0 : Nat)
    (hrc : 1 ≤ runCount) :
    (advancedExecute .serial name runs input runCount t0).results.length = runCount ∧
    (∀ mc tm, 1 ≤ mc.getD runCount →
      (advancedExecute (.parallel mc tm) name runs input runCount t0).results.length
        = runCount) ∧
    (∀ tpl, getPromptTemplate store promptId = some tpl → tpl.text.isEmpty = false →
      ∃ res, multipleBasicPrompts store gen promptId input runCount t0 = .ok res ∧
        res.results.length = runCount) ∧
    (∀ tpl, getPromptTemplate store promptId = some tpl →
      ∃ res, createDbPromptHandlerExecute store gen promptId input runCount t0 = .ok res ∧
        res.results.length = runCount) := by
  refine ⟨?_, ?_, ?_, ?_⟩
  · simp [advancedExecute, serialGo_length]
  · intro mc tm hmc
    simp only [advancedExecute, List.length_map]
    exact parRun_done_length _ t0 hmc
  · intro tpl h htext
    exact ⟨_, multipleBasicPrompts_ok h htext, by simp [basicGo_length]⟩
  · intro tpl h
    exact ⟨_, createDbPromptHandlerExecute_ok h, by simp [basicGo_length]⟩

/-- Witness for C1 at a concrete instance. -/
theorem claim_C1_results_length_witness :
    (advancedExecute .serial "n" (fun _ => ⟨2, .ok ⟨.str "r", none, none⟩⟩)
        "i" 3 0).results.length = 3 ∧
    (advancedExecute (.parallel (some 2) none) "n"
        (fun _ => ⟨2, .ok ⟨.str "r", none, none⟩⟩) "i" 3 0).results.length = 3 := by
  have h := claim_C1_results_length "n" "i" (fun _ => ⟨2, .ok ⟨.str "r", none, none⟩⟩)
    (fun _ => ⟨1, .ok "t"⟩) [] 0 3 0 (by decide)
  exact ⟨h.1, h.2.1 (some 2) none (by decide)⟩

/-- C7: for a basic handler whose template id is no longer in the store,
`execute` rejects with a not-found error before any run starts — the
outcome does not depend on the model-invocation behaviour at all, and no
results are produced. -/
theorem claim_C7_template_not_found
    (store : List PromptTemplate) (gen : Nat → TextRunSpec)
    (promptId : Nat) (input : String) (runCount t0 : Nat)
    (h : getPromptTemplate store promptId = none) :
    multipleBasicPrompts store gen promptId input runCount t0
      = .error "Prompt not found" ∧
    createDbPromptHandlerExecute store gen promptId input runCount t0
      = .error "Prompt template not found" ∧
    (∀ gen' : Nat → TextRunSpec,
      multipleBasicPrompts store gen promptId input runCount t0
        = multipleBasicPrompts store gen' promptId input runCount t0) := by
  refine ⟨?_, ?_, ?_⟩
  · unfold multipleBasicPrompts
    rw [h]
    rfl
  · unfold createDbPromptHandlerExecute
    rw [h]
  · intro gen'
    unfold multipleBasicPrompts
    rw [h]
    rfl

/-- Witness for C7 on the empty store. -/
theorem claim_C7_template_not_found_witness :
    multipleBasicPrompts [] (fun _ => ⟨1, .ok "t"⟩) 5 "x" 2 0
      = .error "Prompt not found" :=
  (claim_C7_template_not_found [] (fun _ => ⟨1, .ok "t"⟩) 5 "x" 2 0 rfl).1

/-- C8: handler-set construction errors exactly when two handlers of the
constructed set share an id; with distinct ids it returns the full
sequence — one db handler per template followed by the fixed advanced
handlers — dropping nothing. -/
theorem claim_C8_handler_set (templates : List PromptTemplate) :
    ((∃ e, createPromptHandlers templates = .error e) ↔
      ¬ ((templates.map createDbPromptHandler ++ advancedHandlers).map (·.id)).Nodup) ∧
    ∀ hs, createPromptHandlers templates = .ok hs →
      hs = templates.map createDbPromptHandler ++ advancedHandlers ∧
      hs.length = templates.length + 2 := by
  constructor
  · constructor
    · rintro ⟨e, he⟩ hnd
      have hok := (validateUniqueIds_ok_iff _).mpr hnd
      simp only [createPromptHandlers] at he
      rw [hok] at he
      cases he
    · intro hnnd
      cases hv : validateUniqueIds (templates.map createDbPromptHandler ++ advancedHandlers) with
      | error e =>
        refine ⟨e, ?_⟩
        simp only [createPromptHandlers]
        rw [hv]
      | ok u =>
        cases u
        exact absurd ((validateUniqueIds_ok_iff _).mp hv) hnnd
  · intro hs h
    simp only [createPromptHandlers] at h
    cases hv : validateUniqueIds (templates.map createDbPromptHandler ++ advancedHandlers) with
    | error e =>
      rw [hv] at h
      cases h
    | ok u =>
      cases u
      rw [hv] at h
      cases h
      refine ⟨rfl, ?_⟩
      simp [advancedHandlers, mkAdvancedHandler]

/-- Witness for C8 on a one-template store. -/
theorem claim_C8_handler_set_witness :
    (([⟨1, "A", "t", none⟩] : List PromptTemplate).map createDbPromptHandler
        ++ advancedHandlers)
      = ([⟨1, "A", "t", none⟩] : List PromptTemplate).map createDbPromptHandler
        ++ advancedHandlers ∧
    (([⟨1, "A", "t", none⟩] : List PromptTemplate).map createDbPromptHandler
        ++ advancedHandlers).length = 1 + 2 :=
  (claim_C8_handler_set [⟨1, "A", "t", none⟩]).2 _ rfl

/-! ## Helper lemmas: response flavour prefixes -/

theorem isPrefixOf_false_of_head_ne {a b : Char} (as bs : List Char)
    (h : (a == b) = false) : (a :: as).isPrefixOf (b :: bs) = false := by
  simp only [List.isPrefixOf_cons₂, h, Bool.false_and]

/-- An `Error: `-flavoured response never starts with `Timeout`. -/
theorem strStarts_error_not_timeout (rest : String) :
    strStarts ("Error: " ++ rest) "Timeout" = false := by
  show ("Timeout".data.isPrefixOf ("Error: " ++ rest).data) = false
  rw [String.data_append]
  rw [show "Error: ".data = 'E' :: "rror: ".data from by decide]
  rw [show "Timeout".data = 'T' :: "imeout".data from by decide]
  rw [List.cons_append]
  exact isPrefixOf_false_of_head_ne _ _ (by decide)

/-- A `Timeout: `-flavoured response never starts with `Error`. -/
theorem strStarts_timeout_not_error (rest : String) :
    strStarts ("Timeout: " ++ rest) "Error" = false := by
  show ("Error".data.isPrefixOf ("Timeout: " ++ rest).data) = false
  rw [String.data_append]
  rw [show "Timeout: ".data = 'T' :: "imeout: ".data from by decide]
  rw [show "Error".data = 'E' :: "rror".data from by decide]
  rw [List.cons_append]
  exact isPrefixOf_false_of_head_ne _ _ (by decide)

/-- A `Timeout: `-flavoured response starts with `Timeout`. -/
theorem strStarts_timeout_yes (rest : String) :
    strStarts ("Timeout: " ++ rest) "Timeout" = true := by
  show ("Timeout".data.isPrefixOf ("Timeout: " ++ rest).data) = true
  rw [String.data_append]
  rw [show "Timeout: ".data = "Timeout".data ++ [':', ' '] from by decide]
  rw [List.append_assoc]
  exact isPrefixOf_append_self _ _

/-- C2: under the serial policy `totalDuration` is the sum of the per-run
durations; under the parallel policy it is the wall-clock span of the
batch (batch end — the settle time of the last completion — minus batch
start); the basic handler, always serial, also reports the sum of its
per-run durations. -/
theorem claim_C2_total_duration
    (name input : String) (runs : Nat → RunSpec) (gen : Nat → TextRunSpec)
    (store : List PromptTemplate) (promptId runCount t0 : Nat) :
    ((advancedExecute .serial name runs input runCount t0).totalDuration
      = ((advancedExecute .serial name runs input runCount t0).results.map
          (·.duration)).sum) ∧
    (∀ mc tm, 1 ≤ mc.getD runCount → 1 ≤ runCount →
      (∀ e ∈ (parRun ⟨runs, input, tm.getD 30000, mc.getD runCount, runCount⟩ t0).done,
        e.finish ≤ t0 +
          (advancedExecute (.parallel mc tm) name runs input runCount t0).totalDuration) ∧
      (∃ e ∈ (parRun ⟨runs, input, tm.getD 30000, mc.getD runCount, runCount⟩ t0).done,
        e.finish = t0 +
          (advancedExecute (.parallel mc tm) name runs input runCount t0).totalDuration)) ∧
    (∀ tpl res, getPromptTemplate store promptId = some tpl → tpl.text.isEmpty = false →
      multipleBasicPrompts store gen promptId input runCount t0 = .ok res →
      res.totalDuration = (res.results.map (·.duration)).sum) ∧
    (∀ tpl res, getPromptTemplate store promptId = some tpl →
      createDbPromptHandlerExecute store gen promptId input runCount t0 = .ok res →
      res.totalDuration = (res.results.map (·.duration)).sum) := by
  refine ⟨?_, ?_, ?_, ?_⟩
  · simp only [advancedExecute]
    simp [foldl_add_eq_sum]
  · intro mc tm hmc hrc
    obtain ⟨hall, hlast, ht0⟩ :=
      parRun_wallclock ⟨runs, input, tm.getD 30000, mc.getD runCount, runCount⟩ t0 hmc hrc
    have htd : (advancedExecute (.parallel mc tm) name runs input runCount t0).totalDuration
        = (parRun ⟨runs, input, tm.getD 30000, mc.getD runCount, runCount⟩ t0).now - t0 := rfl
    constructor
    · intro e he
      have := hall e he
      omega
    · obtain ⟨e, he, hfin⟩ := hlast
      exact ⟨e, he, by omega⟩
  · intro tpl res h htext hok
    rw [multipleBasicPrompts_ok h htext] at hok
    cases hok
    simp only [basicGo_map_duration, basicGo_clock]
    omega
  · intro tpl res h hok
    rw [createDbPromptHandlerExecute_ok h] at hok
    cases hok
    simp only [basicGo_map_duration, basicGo_clock]
    omega

/-- Witness for C2 at a concrete instance. -/
theorem claim_C2_total_duration_witness :
    (advancedExecute .serial "n" (fun _ => ⟨5, .ok ⟨.str "r", none, none⟩⟩)
        "i" 2 0).totalDuration
      = ((advancedExecute .serial "n" (fun _ => ⟨5, .ok ⟨.str "r", none, none⟩⟩)
          "i" 2 0).results.map (·.duration)).sum ∧
    (∃ e ∈ (parRun ⟨(fun _ => ⟨5, .ok ⟨.str "r", none, none⟩⟩), "i", 30000, 2, 2⟩ 0).done,
      e.finish = 0 + (advancedExecute (.parallel (some 2) (some 30000)) "n"
        (fun _ => ⟨5, .ok ⟨.str "r", none, none⟩⟩) "i" 2 0).totalDuration) := by
  have h := claim_C2_total_duration "n" "i" (fun _ => ⟨5, .ok ⟨.str "r", none, none⟩⟩)
    (fun _ => ⟨5, .ok "t"⟩) [] 1 2 0
  exact ⟨h.1, (h.2.1 (some 2) (some 30000) (by decide) (by decide)).2⟩

/-- C3, counterexample: the claim as stated fails on the parallel path.
A run whose wrapped function rejects quickly (no timeout) with an
`Error` whose message happens to contain `Timeout after` is reported
with a `Timeout: `-prefixed response, not `Error: ` followed by the
message. -/
theorem claim_C3_counterexample :
    (((advancedExecute (.parallel (some 1) (some 50)) "n"
          (fun _ => ⟨1, .error (.error "wrapped Timeout after glitch")⟩)
          "in" 1 0).results[0]?).map (·.response)
        = some (.str ("Timeout: " ++ "wrapped Timeout after glitch"))) ∧
    ¬ (((advancedExecute (.parallel (some 1) (some 50)) "n"
          (fun _ => ⟨1, .error (.error "wrapped Timeout after glitch")⟩)
          "in" 1 0).results[0]?).map (·.response)
        = some (.str ("Error: " ++ "wrapped Timeout after glitch"))) := by
  refine ⟨by decide, by decide⟩

/-- C3 (amended): a run whose wrapped async function rejects with an
`Error e` yields an error-flavoured result whose response is `Error: `
followed by `e.message` — under the serial policy always, and under the
parallel policy whenever `e.message` does not contain the substring
`Timeout after` (otherwise the parallel catch misreports it as
`Timeout: ` followed by the message); all remaining runs still execute
(serial) or start (parallel), keeping the full `runCount`-length
sequence, and `execute` itself resolves — for the basic handler, an
`.ok` value is produced whenever the template resolves, and a rejection
can only come from the pre-run template resolution. -/
theorem claim_C3_per_run_error
    (name input : String) (runs : Nat → RunSpec) (gen : Nat → TextRunSpec)
    (store : List PromptTemplate) (promptId runCount t0 : Nat)
    (i : Nat) (msg : String) (hi : i < runCount)
    (houtcome : (runs i).outcome = .error (.error msg)) :
    ((advancedExecute .serial name runs input runCount t0).results[i]?).map (·.response)
      = some (.str ("Error: " ++ msg)) ∧
    (advancedExecute .serial name runs input runCount t0).results.length = runCount ∧
    (∀ timeoutMs startTime, (runs i).dur ≤ timeoutMs →
      jsIncludes msg "Timeout after" = false →
      (parallelRunResult input timeoutMs (runs i) startTime).response
        = .str ("Error: " ++ msg)) ∧
    (∀ mc tm, 1 ≤ mc.getD runCount →
      (advancedExecute (.parallel mc tm) name runs input runCount t0).results.length
        = runCount) ∧
    (∀ tpl, getPromptTemplate store promptId = some tpl → tpl.text.isEmpty = false →
      ∃ res, multipleBasicPrompts store gen promptId input runCount t0 = .ok res) ∧
    (∀ e, multipleBasicPrompts store gen promptId input runCount t0 = .error e →
      getPromptTemplate store promptId = none ∨
      ∃ tpl, getPromptTemplate store promptId = some tpl ∧ tpl.text.isEmpty = true) := by
  refine ⟨?_, ?_, ?_, ?_, ?_, ?_⟩
  · have hg := serialGo_getElem? runs input runCount i t0 0 hi
    simp only [advancedExecute]
    rw [hg]
    simp only [Nat.zero_add, Option.map_some']
    unfold serialRun
    rw [houtcome]
    rfl
  · simp [advancedExecute, serialGo_length]
  · intro timeoutMs startTime hdur hnt
    unfold parallelRunResult
    rw [if_pos hdur, houtcome]
    simp only [catchResult, hnt, Bool.false_eq_true, if_false, jsErrMessage]
    rfl
  · intro mc tm hmc
    simp only [advancedExecute, List.length_map]
    exact parRun_done_length _ t0 hmc
  · intro tpl h htext
    exact ⟨_, multipleBasicPrompts_ok h htext⟩
  · intro e he
    unfold multipleBasicPrompts at he
    cases hl : getPromptTemplate store promptId with
    | none => exact Or.inl rfl
    | some tpl =>
      refine Or.inr ⟨tpl, rfl, ?_⟩
      rw [hl] at he
      simp only [Option.map_some'] at he
      rcases hc : tpl.text.isEmpty with _ | _
      · rw [hc] at he
        simp at he
      · rfl

/-- Witness for C3 at a concrete always-rejecting function, under both
policies. -/
theorem claim_C3_per_run_error_witness :
    ((advancedExecute .serial "n" (fun _ => ⟨1, .error (.error "boom")⟩)
        "i" 2 0).results[0]?).map (·.response) = some (.str ("Error: " ++ "boom")) ∧
    (advancedExecute .serial "n" (fun _ => ⟨1, .error (.error "boom")⟩)
        "i" 2 0).results.length = 2 ∧
    (parallelRunResult "i" 100 ⟨1, .error (.error "boom")⟩ 7).response
      = .str ("Error: " ++ "boom") ∧
    (advancedExecute (.parallel (some 2) none) "n" (fun _ => ⟨1, .error (.error "boom")⟩)
        "i" 2 0).results.length = 2 := by
  have h := claim_C3_per_run_error "n" "i" (fun _ => ⟨1, .error (.error "boom")⟩)
    (fun _ => ⟨1, .ok "t"⟩) [] 0 2 0 0 "boom" (by decide) rfl
  exact ⟨h.1, h.2.1, h.2.2.1 100 7 (by decide) (by decide),
    h.2.2.2.1 (some 2) none (by decide)⟩

/-- C4: under the parallel policy a run whose wrapped call takes longer
than `timeoutMs` loses the race and is recorded as a `Timeout`-flavoured
result (response starting with `Timeout`, not `Error`) with the same
structural shape — response, prompt, logs, duration, timestamp — as any
other per-run failure; sibling runs are unaffected (the batch still
yields `runCount` results), and an omitted `timeoutMs` means `30000`. -/
theorem claim_C4_parallel_timeout
    (name input : String) (timeoutMs : Nat) (spec : RunSpec) (startTime : Nat)
    (runs : Nat → RunSpec) (runCount t0 : Nat) (mc : Option Nat)
    (ht : timeoutMs < spec.dur) :
    parallelRunResult input timeoutMs spec startTime =
      { response := .str ("Timeout: " ++ ("Timeout after " ++ toString timeoutMs ++ "ms"))
        prompt := some ("Error processing: " ++ input)
        logs := some [⟨"Timeout Error", "Timeout after " ++ toString timeoutMs ++ "ms"⟩]
        duration := timeoutMs
        timestamp := startTime } ∧
    strStarts ("Timeout: " ++ ("Timeout after " ++ toString timeoutMs ++ "ms")) "Timeout"
      = true ∧
    strStarts ("Timeout: " ++ ("Timeout after " ++ toString timeoutMs ++ "ms")) "Error"
      = false ∧
    (1 ≤ mc.getD runCount →
      (advancedExecute (.parallel mc (some timeoutMs)) name runs input
        runCount t0).results.length = runCount) ∧
    advancedExecute (.parallel mc none) name runs input runCount t0
      = advancedExecute (.parallel mc (some 30000)) name runs input runCount t0 := by
  refine ⟨?_, strStarts_timeout_yes _, strStarts_timeout_not_error _, ?_, rfl⟩
  · unfold parallelRunResult
    rw [if_neg (by omega)]
    simp only [catchResult, jsIncludes_timeout_message, if_true, jsErrMessage, jsLogText]
    rfl
  · intro hmc
    simp only [advancedExecute, List.length_map]
    exact parRun_done_length _ t0 hmc

/-- Witness for C4 at `timeoutMs = 10` and a run taking `50`. -/
theorem claim_C4_parallel_timeout_witness :
    parallelRunResult "x" 10 ⟨50, .ok ⟨.str "slow", none, none⟩⟩ 3 =
      { response := .str ("Timeout: " ++ ("Timeout after " ++ toString 10 ++ "ms"))
        prompt := some ("Error processing: " ++ "x")
        logs := some [⟨"Timeout Error", "Timeout after " ++ toString 10 ++ "ms"⟩]
        duration := 10
        timestamp := 3 } ∧
    (advancedExecute (.parallel (some 2) (some 10)) "n"
      (fun _ => ⟨50, .ok ⟨.str "slow", none, none⟩⟩) "x" 2 0).results.length = 2 := by
  have h := claim_C4_parallel_timeout "n" "x" 10 ⟨50, .ok ⟨.str "slow", none, none⟩⟩ 3
    (fun _ => ⟨50, .ok ⟨.str "slow", none, none⟩⟩) 2 0 (some 2) (by decide)
  exact ⟨h.1, h.2.2.2.1 (by decide)⟩

/-- C5: under the serial policy the `i`-th result is the outcome of the
`i`-th run started (strict start order); under the parallel policy
results are recorded in completion order — settle times are
non-decreasing along the sequence — which on a concrete two-run schedule
(run 0 slow, run 1 fast) differs from start order. -/
theorem claim_C5_result_order
    (name input : String) (runs : Nat → RunSpec) (runCount t0 : Nat) :
    (∀ i, i < runCount →
      (advancedExecute .serial name runs input runCount t0).results[i]?
        = some (serialRun runs input (t0 + sumDur runs 0 i) i)) ∧
    (∀ mc tm : Option Nat,
      List.Chain' (fun e₁ e₂ => e₁.finish ≤ e₂.finish)
        (parRun ⟨runs, input, tm.getD 30000, mc.getD runCount, runCount⟩ t0).done) ∧
    ((parRun ⟨(fun i => if i = 0 then ⟨100, .ok ⟨.str "a", none, none⟩⟩
          else ⟨10, .ok ⟨.str "b", none, none⟩⟩), "x", 30000, 2, 2⟩ 0).done.map (·.runId)
        = [1, 0] ∧
      (parRun ⟨(fun i => if i = 0 then ⟨100, .ok ⟨.str "a", none, none⟩⟩
          else ⟨10, .ok ⟨.str "b", none, none⟩⟩), "x", 30000, 2, 2⟩ 0).done.map (·.runId)
        ≠ [0, 1]) := by
  refine ⟨?_, ?_, by decide, by decide⟩
  · intro i hi
    have hg := serialGo_getElem? runs input runCount i t0 0 hi
    simpa only [Nat.zero_add] using hg
  · intro mc tm
    exact (parRun_inv _ t0).done_sorted

/-- Witness for C5 at a concrete serial call. -/
theorem claim_C5_result_order_witness :
    (advancedExecute .serial "n" (fun _ => ⟨4, .ok ⟨.str "r", none, none⟩⟩)
        "i" 2 0).results[1]?
      = some (serialRun (fun _ => ⟨4, .ok ⟨.str "r", none, none⟩⟩) "i"
          (0 + sumDur (fun _ => ⟨4, .ok ⟨.str "r", none, none⟩⟩) 0 1) 1) :=
  (claim_C5_result_order "n" "i" (fun _ => ⟨4, .ok ⟨.str "r", none, none⟩⟩) 2 0).1
    1 (by decide)

/-- C6 (substitution modelled from the spec): the placeholder token is
replaced by the literal input exactly once — the first occurrence is
replaced and nothing else changes — with no residual placeholder on the
specification's canonical instance; every result of one basic `execute`
call carries the same fully substituted `prompt`, and `promptTemplate`
is the raw template text. -/
theorem claim_C6_substitution
    (input : String) (rep : List Char) (b : List Char)
    (store : List PromptTemplate) (gen : Nat → TextRunSpec)
    (promptId runCount t0 : Nat) :
    (∀ a : List Char,
      (∀ i, i < a.length →
        inputPlaceholder.toList.isPrefixOf
          ((a ++ inputPlaceholder.toList ++ b).drop i) = false) →
      replaceFirstL inputPlaceholder.toList rep (a ++ inputPlaceholder.toList ++ b)
        = a ++ rep ++ b) ∧
    (insertInputIntoPrompt "prefix \x7b\x7bINPUT\x7d\x7d suffix" "X" = "prefix X suffix" ∧
      jsIncludes "prefix X suffix" inputPlaceholder = false) ∧
    (∀ tpl res, getPromptTemplate store promptId = some tpl → tpl.text.isEmpty = false →
      multipleBasicPrompts store gen promptId input runCount t0 = .ok res →
      res.promptTemplate = tpl.text ∧
      ∀ r ∈ res.results, r.prompt = some (insertInputIntoPrompt tpl.text input)) ∧
    (∀ tpl res, getPromptTemplate store promptId = some tpl →
      createDbPromptHandlerExecute store gen promptId input runCount t0 = .ok res →
      res.promptTemplate = tpl.text ∧
      ∀ r ∈ res.results, r.prompt = some (insertInputIntoPrompt tpl.text input)) := by
  refine ⟨?_, ⟨by decide, by decide⟩, ?_, ?_⟩
  · intro a hfirst
    exact replaceFirstL_first inputPlaceholder.toList rep b (by decide) a hfirst
  · intro tpl res h htext hok
    rw [multipleBasicPrompts_ok h htext] at hok
    cases hok
    exact ⟨rfl, basicGo_prompt gen _ runCount t0 0⟩
  · intro tpl res h hok
    rw [createDbPromptHandlerExecute_ok h] at hok
    cases hok
    exact ⟨rfl, basicGo_prompt gen _ runCount t0 0⟩

/-- Witness for C6 on the canonical template shape. -/
theorem claim_C6_substitution_witness :
    replaceFirstL inputPlaceholder.toList "X".toList
        ("prefix ".toList ++ inputPlaceholder.toList ++ " suffix".toList)
      = "prefix ".toList ++ "X".toList ++ " suffix".toList :=
  (claim_C6_substitution "X" "X".toList " suffix".toList [] (fun _ => ⟨1, .ok "t"⟩)
    0 1 0).1 "prefix ".toList (by decide)

/-- C9: on every state of the parallel scheduler's settle-event trace at
most `maxConcurrency` runs are in flight; whenever a settle event occurs
while unstarted runs remain, exactly one new run is started to refill
the window; and an omitted `maxConcurrency` means `runCount`. -/
theorem claim_C9_rolling_concurrency
    (cfg : ParCfg) (t0 k : Nat)
    (name input : String) (runs : Nat → RunSpec) (runCount t0' : Nat)
    (tm : Option Nat) :
    ((stepOne cfg)^[k] (parStart cfg t0)).active.length ≤ cfg.maxConcurrency ∧
    (((stepOne cfg)^[k] (parStart cfg t0)).started < cfg.runCount →
      ((stepOne cfg)^[k] (parStart cfg t0)).active ≠ [] →
      (stepOne cfg ((stepOne cfg)^[k] (parStart cfg t0))).started
        = ((stepOne cfg)^[k] (parStart cfg t0)).started + 1) ∧
    advancedExecute (.parallel none tm) name runs input runCount t0'
      = advancedExecute (.parallel (some runCount) tm) name runs input runCount t0' := by
  have hinv := schedInv_iterate cfg t0 k
  refine ⟨?_, ?_, rfl⟩
  · have := hinv.active_len
    omega
  · intro hlt hne
    exact stepOne_started_succ cfg t0 hinv hne hlt

/-- Witness for C9 on a two-run, one-slot schedule after the initial
batch. -/
theorem claim_C9_rolling_concurrency_witness :
    ((stepOne ⟨(fun _ => ⟨5, .ok ⟨.str "r", none, none⟩⟩), "i", 30000, 1, 2⟩)^[0]
        (parStart ⟨(fun _ => ⟨5, .ok ⟨.str "r", none, none⟩⟩), "i", 30000, 1, 2⟩ 0)).active.length
      ≤ 1 ∧
    (stepOne ⟨(fun _ => ⟨5, .ok ⟨.str "r", none, none⟩⟩), "i", 30000, 1, 2⟩
        ((stepOne ⟨(fun _ => ⟨5, .ok ⟨.str "r", none, none⟩⟩), "i", 30000, 1, 2⟩)^[0]
          (parStart ⟨(fun _ => ⟨5, .ok ⟨.str "r", none, none⟩⟩), "i", 30000, 1, 2⟩ 0))).started
      = ((stepOne ⟨(fun _ => ⟨5, .ok ⟨.str "r", none, none⟩⟩), "i", 30000, 1, 2⟩)^[0]
          (parStart ⟨(fun _ => ⟨5, .ok ⟨.str "r", none, none⟩⟩), "i", 30000, 1, 2⟩ 0)).started
        + 1 := by
  have h := claim_C9_rolling_concurrency
    ⟨(fun _ => ⟨5, .ok ⟨.str "r", none, none⟩⟩), "i", 30000, 1, 2⟩ 0 0
    "n" "i" (fun _ => ⟨5, .ok ⟨.str "r", none, none⟩⟩) 2 0 none
  exact ⟨h.1, h.2.1 (by decide) (by decide)⟩

/-- C10: the parallel executor classifies a caught per-run failure as a
timeout exactly when the caught value is an `Error` whose message
contains the substring `Timeout after`: the result's response flavour
and log label follow that substring test and nothing else, so a
rejection carrying that substring is reported as a timeout even though
no timeout occurred. -/
theorem claim_C10_timeout_classification
    (input : String) (timeoutMs : Nat) (spec : RunSpec) (startTime : Nat)
    (msg : String) (hdur : spec.dur ≤ timeoutMs)
    (hout : spec.outcome = .error (.error msg)) :
    parallelRunResult input timeoutMs spec startTime =
      { response := .str ((if jsIncludes msg "Timeout after" then "Timeout" else "Error")
          ++ ": " ++ msg)
        prompt := some ("Error processing: " ++ input)
        logs := some [⟨if jsIncludes msg "Timeout after" then "Timeout Error"
          else "Execution Error", msg⟩]
        duration := spec.dur
        timestamp := startTime } ∧
    strStarts ((if jsIncludes msg "Timeout after" then "Timeout" else "Error")
        ++ ": " ++ msg) "Timeout"
      = jsIncludes msg "Timeout after" ∧
    (parallelRunResult "in" 100 ⟨1, .error (.error "looks like Timeout after boom")⟩ 0).response
      = .str ("Timeout: looks like Timeout after boom") ∧
    (parallelRunResult "in" 100 ⟨1, .error (.error "looks like Timeout after boom")⟩ 0).logs
      = some [⟨"Timeout Error", "looks like Timeout after boom"⟩] := by
  refine ⟨?_, ?_, by decide, by decide⟩
  · unfold parallelRunResult
    rw [if_pos hdur, hout]
    simp only [catchResult, jsErrMessage, jsLogText]
  · rcases hc : jsIncludes msg "Timeout after" with _ | _
    · simp only [if_false, Bool.false_eq_true]
      have h : ("Error" ++ ": " ++ msg) = "Error: " ++ msg := rfl
      rw [h]
      exact strStarts_error_not_timeout msg
    · simp only [if_true]
      have h : ("Timeout" ++ ": " ++ msg) = "Timeout: " ++ msg := rfl
      rw [h]
      exact strStarts_timeout_yes msg

/-- Witness for C10: a fast rejection whose message merely mentions the
timeout phrase is classified as a timeout. -/
theorem claim_C10_timeout_classification_witness :
    parallelRunResult "in" 100 ⟨1, .error (.error "looks like Timeout after boom")⟩ 0 =
      { response := .str ((if jsIncludes "looks like Timeout after boom" "Timeout after"
            then "Timeout" else "Error") ++ ": " ++ "looks like Timeout after boom")
        prompt := some ("Error processing: " ++ "in")
        logs := some [⟨if jsIncludes "looks like Timeout after boom" "Timeout after"
          then "Timeout Error" else "Execution Error", "looks like Timeout after boom"⟩]
        duration := 1
        timestamp := 0 } :=
  (claim_C10_timeout_classification "in" 100 ⟨1, .error (.error "looks like Timeout after boom")⟩
    0 "looks like Timeout after boom" (by decide) rfl).1
